import Mathlib

/-!
Verification development for the obsidian-whisper-plugin audio pipeline
(`src/AudioProcessor.ts`, two near-duplicate revisions, plus `src/main.ts`).
The TypeScript is shallowly embedded: JS numbers become `ℚ` (the pipeline only
manipulates exact decimal fractions), file systems become association lists of
path/contents pairs, and the asynchronous stdout handler becomes a state
transformer on the handler's closure variables.
-/

/-! ## Node `path` (posix flavour), restricted to the inputs the plugin uses:
paths without `.` / `..` segments and, apart from the root, no trailing
separators. -/

/-- Node `path.join(a, b)` for such segments: concatenate with a single
separator (the normalization pass is the identity on this domain). -/
def pathJoin (a b : String) : String :=
  if a = "" then b
  else if a.data.getLast? = some '/' then a ++ b
  else a ++ "/" ++ b

/-- Node `path.dirname(p)` (posix): strip trailing separators, then the last
component, then the separator run before it; `/` and `.` for the degenerate
cases. -/
def pathDirname (p : String) : String :=
  let r := p.data.reverse.dropWhile (· = '/')
  let r2 := (r.dropWhile (· ≠ '/')).dropWhile (· = '/')
  if r2.isEmpty then
    match p.data with
    | '/' :: _ => "/"
    | _ => "."
  else String.mk r2.reverse

/-- Node `path.resolve(p)` applied, as in the source, to a single argument that
is already absolute and normalized: it returns the path unchanged. -/
def pathResolve (p : String) : String := p

/-- Node `path.isAbsolute(p)` (posix). -/
def pathIsAbsolute (p : String) : Bool :=
  match p.data with
  | '/' :: _ => true
  | _ => false

/-- Final path component (helper for Node `path.basename` / `path.extname`). -/
def lastComponent (p : String) : String :=
  String.mk ((p.data.reverse.takeWhile (· ≠ '/')).reverse)

/-- Node `path.extname(p)`: the suffix of the base name from its last dot;
empty when there is no dot or the only dot is the leading character. -/
def pathExtname (p : String) : String :=
  let base := (lastComponent p).data
  let revAfterDot := base.reverse.takeWhile (· ≠ '.')
  if revAfterDot.length = base.length then ""
  else if revAfterDot.length + 1 = base.length then ""
  else String.mk ('.' :: revAfterDot.reverse)

/-- List-level suffix test (Node `String.prototype.endsWith` on our strings). -/
def strEndsWith (s suf : String) : Bool :=
  suf.data.isSuffixOf s.data

/-- Node `path.basename(p, ext)`: the last component, with `ext` stripped when
it is a proper suffix of it. -/
def pathBasename (p ext : String) : String :=
  let base := lastComponent p
  if ext ≠ "" ∧ base ≠ ext ∧ strEndsWith base ext then base.dropRight ext.length
  else base

/-! ## `AudioProcessor` constructor paths (part_001 lines 26-28). -/

/-- `path.join(process.env.HOME || '', 'Documents', 'obsidian', 'whisper-env')`. -/
def venvPath (home : String) : String :=
  pathJoin (pathJoin (pathJoin home "Documents") "obsidian") "whisper-env"

/-- `path.join(this.venvPath, 'bin', 'mlx_whisper')`. -/
def mlxWhisperPath (home : String) : String :=
  pathJoin (pathJoin (venvPath home) "bin") "mlx_whisper"

/-- `path.join(this.venvPath, "bin", "python3")` (part_001 line 241). -/
def venvPython (home : String) : String :=
  pathJoin (pathJoin (venvPath home) "bin") "python3"

/-! ## `parseTimestamp` (part_001 lines 201-226) and `formatTime`
(lines 192-199). -/

/-- The character `'0' + n` for a digit value `n`. -/
def digitChar (n : ℕ) : Char := Char.ofNat (48 + n)

/-- Numeric value of a decimal digit character (JS `parseInt` on one digit). -/
def digitVal (c : Char) : ℕ := c.toNat - 48

/-- JS `parseInt` on a two-digit capture group. -/
def val2 (a b : Char) : ℕ := 10 * digitVal a + digitVal b

/-- JS `parseInt` on a three-digit capture group. -/
def val3 (a b c : Char) : ℕ := 100 * digitVal a + 10 * digitVal b + digitVal c

/-- The anchored regex `^(?:(\d\d):)?(\d\d):(\d\d)\.(\d\d\d)$` of
`parseTimestamp`: `some (hours, minutes, seconds, millis)` on a match (hours 0
when the optional group is absent, as in the source), `none` otherwise. -/
def parseTimestampAux (s : String) : Option (ℕ × ℕ × ℕ × ℕ) :=
  match s.data with
  | [h1, h2, ':', m1, m2, ':', s1, s2, '.', x1, x2, x3] =>
    if h1.isDigit && h2.isDigit && m1.isDigit && m2.isDigit &&
        s1.isDigit && s2.isDigit && x1.isDigit && x2.isDigit && x3.isDigit then
      some (val2 h1 h2, val2 m1 m2, val2 s1 s2, val3 x1 x2 x3)
    else none
  | [m1, m2, ':', s1, s2, '.', x1, x2, x3] =>
    if m1.isDigit && m2.isDigit && s1.isDigit && s2.isDigit &&
        x1.isDigit && x2.isDigit && x3.isDigit then
      some (0, val2 m1 m2, val2 s1 s2, val3 x1 x2 x3)
    else none
  | _ => none

/-- `parseTimestamp`: `(hours * 3600) + (minutes * 60) + seconds +
(milliseconds / 1000)` on a match, and `0` on a format mismatch (the
`console.error` branch). -/
def parseTimestamp (timestamp : String) : ℚ :=
  match parseTimestampAux timestamp with
  | some (h, m, s, ms) => (h : ℚ) * 3600 + (m : ℚ) * 60 + (s : ℚ) + (ms : ℚ) / 1000
  | none => 0

/-- Decimal digits of a natural number (JS `Number.prototype.toString` on the
nonnegative integers this code prints), via explicit fuel so it reduces in the
kernel. -/
def natReprAux : ℕ → ℕ → List Char
  | 0, _ => []
  | fuel + 1, n =>
    if n < 10 then [digitChar n]
    else natReprAux fuel (n / 10) ++ [digitChar (n % 10)]

/-- Decimal rendering of a natural number. -/
def natRepr (n : ℕ) : String := String.mk (natReprAux (n + 1) n)

/-- JS `String.prototype.padStart(2, '0')`. -/
def padStart2 (s : String) : String :=
  if s.data.length < 2 then "0" ++ s else s

/-- JS `%` on the nonnegative numbers this code feeds it (where truncation
towards zero coincides with the floor). -/
def jsMod (a b : ℚ) : ℚ := a - b * (⌊a / b⌋ : ℚ)

/-- `formatTime` (part_001 lines 192-199): `H:MM:SS` when the hour is positive,
`M:SS` otherwise; minutes and seconds are zero-padded except for the leading
component. -/
def formatTime (timeInSeconds : ℚ) : String :=
  let hours : ℤ := ⌊timeInSeconds / 3600⌋
  let minutes : ℤ := ⌊jsMod timeInSeconds 3600 / 60⌋
  let seconds : ℤ := ⌊jsMod timeInSeconds 60⌋
  if 0 < hours then
    natRepr hours.toNat ++ ":" ++ padStart2 (natRepr minutes.toNat) ++ ":" ++
      padStart2 (natRepr seconds.toNat)
  else
    natRepr minutes.toNat ++ ":" ++ padStart2 (natRepr seconds.toNat)

/-! ## Claim-side constructions for the timestamp round-trip. -/

/-- A valid `[HH:]MM:SS.mmm` timestamp string built from its numeric
components, each zero-padded to the width the format prescribes. -/
def renderTs (hour : Option ℕ) (minute second millis : ℕ) : String :=
  match hour with
  | some h =>
    String.mk [digitChar (h / 10), digitChar (h % 10), ':',
      digitChar (minute / 10), digitChar (minute % 10), ':',
      digitChar (second / 10), digitChar (second % 10), '.',
      digitChar (millis / 100), digitChar (millis / 10 % 10), digitChar (millis % 10)]
  | none =>
    String.mk [digitChar (minute / 10), digitChar (minute % 10), ':',
      digitChar (second / 10), digitChar (second % 10), '.',
      digitChar (millis / 100), digitChar (millis / 10 % 10), digitChar (millis % 10)]

/-- The `[H:]M:SS` display form `formatTime` produces, stated directly on the
numeric components: hours shown only when positive, the leading component
unpadded, later components zero-padded to two digits. -/
def displayHMS (hour minute second : ℕ) : String :=
  if 0 < hour then
    natRepr hour ++ ":" ++ padStart2 (natRepr minute) ++ ":" ++ padStart2 (natRepr second)
  else
    natRepr minute ++ ":" ++ padStart2 (natRepr second)

/-! ## The stdout-line timestamp search of `runTranscription`
(part_001 line 304): the unanchored regex
`\[(?:(\d\d):)?(\d\d):(\d\d\.\d\d\d)\s*-->\s*(?:(\d\d):)?(\d\d):(\d\d\.\d\d\d)\]`,
embedded as an explicit scanner. The optional hour alternative is tried
greedily first, which coincides with the regex because a successful
hour-present parse makes the hour-absent parse of the same position fail. -/

/-- Capture groups of one bracketed range: groups 1-3 for the start timestamp
and 4-6 for the end timestamp, hours optional. -/
structure TsMatch where
  startHour : Option String
  startMin : String
  startSec : String
  endHour : Option String
  endMin : String
  endSec : String
deriving DecidableEq, Repr

/-- Consume `\d\d` as one capture. -/
def takeDigits2 : List Char → Option (String × List Char)
  | a :: b :: rest => if a.isDigit && b.isDigit then some (String.mk [a, b], rest) else none
  | _ => none

/-- Consume `\d\d\.\d\d\d` as one capture. -/
def takeSecMs : List Char → Option (String × List Char)
  | a :: b :: '.' :: c :: d :: e :: rest =>
    if a.isDigit && b.isDigit && c.isDigit && d.isDigit && e.isDigit then
      some (String.mk [a, b, '.', c, d, e], rest)
    else none
  | _ => none

/-- Consume `(\d\d):(\d\d):(\d\d\.\d\d\d)` (hour group present). -/
def takeTimestampWithHour (l : List Char) : Option ((Option String × String × String) × List Char) :=
  match takeDigits2 l with
  | none => none
  | some (h, r1) =>
    match r1 with
    | ':' :: r2 =>
      match takeDigits2 r2 with
      | none => none
      | some (m, r3) =>
        match r3 with
        | ':' :: r4 =>
          match takeSecMs r4 with
          | none => none
          | some (s, r5) => some ((some h, m, s), r5)
        | _ => none
    | _ => none

/-- Consume `(\d\d):(\d\d\.\d\d\d)` (hour group absent). -/
def takeTimestampNoHour (l : List Char) : Option ((Option String × String × String) × List Char) :=
  match takeDigits2 l with
  | none => none
  | some (m, r1) =>
    match r1 with
    | ':' :: r2 =>
      match takeSecMs r2 with
      | none => none
      | some (s, r3) => some ((none, m, s), r3)
    | _ => none

/-- One `(?:(\d\d):)?(\d\d):(\d\d\.\d\d\d)` timestamp, greedy on the optional
hour group. -/
def takeTimestampPart (l : List Char) : Option ((Option String × String × String) × List Char) :=
  match takeTimestampWithHour l with
  | some r => some r
  | none => takeTimestampNoHour l

/-- The ASCII part of the JS `\s` character class. -/
def jsIsSpace (c : Char) : Bool :=
  c = ' ' || c = '\t' || c = '\n' || c = '\r' || c = Char.ofNat 11 || c = Char.ofNat 12

/-- Greedy `\s*`. -/
def skipWs (l : List Char) : List Char := l.dropWhile jsIsSpace

/-- Anchored attempt of the whole bracketed-range pattern at one position. -/
def matchBracketAt (l : List Char) : Option TsMatch :=
  match l with
  | '[' :: r0 =>
    match takeTimestampPart r0 with
    | none => none
    | some ((h1, m1, s1), r1) =>
      match skipWs r1 with
      | '-' :: '-' :: '>' :: r2 =>
        match takeTimestampPart (skipWs r2) with
        | none => none
        | some ((h2, m2, s2), r3) =>
          match r3 with
          | ']' :: _ => some ⟨h1, m1, s1, h2, m2, s2⟩
          | _ => none
      | _ => none
  | _ => none

/-- Unanchored leftmost search (JS `String.prototype.match`). -/
def bracketMatchAux : List Char → Option TsMatch
  | [] => none
  | c :: rest =>
    match matchBracketAt (c :: rest) with
    | some m => some m
    | none => bracketMatchAux rest

/-- `line.match(timestampRegex)` of the stdout handler. -/
def bracketMatch (line : String) : Option TsMatch := bracketMatchAux line.data

/-- `endTimeStr` (part_001 lines 315-317): groups 4-6 joined by `:` when the
end hour is present; otherwise groups 2-3 — which are the START timestamp's
minute and seconds. The adjoining comment says it is using the end time
(groups 5-6 in the hour-less case), but the expression reads `match[2]` and
`match[3]`; the embedding keeps the code's group numbering. -/
def endTimeStr (m : TsMatch) : String :=
  match m.endHour with
  | some h => h ++ ":" ++ m.endMin ++ ":" ++ m.endSec
  | none => m.startMin ++ ":" ++ m.startSec

/-! ## The stdout handler of `runTranscription` (part_001 lines 300-341),
per complete line. -/

/-- JS `Math.round` on the nonnegative values this code feeds it. -/
def jsRound (x : ℚ) : ℤ := ⌊x + 1 / 2⌋

/-- One observer notification of the handler: a percent update
(`H:MM / H:MM (p%)`) carrying the applied elapsed seconds and the percent, or
the plain still-transcribing notice. -/
inductive ProgressEvent where
  | update (currentTime : ℚ) (percent : ℤ)
  | working
deriving DecidableEq, Repr

/-- The closure state of the handler: the `transcription` accumulator, the
ffprobe `totalDuration` (set once before line processing starts), and
`lastProgressUpdate`. -/
structure HandlerState where
  transcription : String
  totalDuration : Option ℚ
  lastProgressUpdate : ℚ

/-- Processing of one complete stdout line (part_001 lines 300-341): the line
is appended to the transcript accumulator; on a timestamp match the end
timestamp is parsed and applied only when the total duration is truthy and the
parsed time exceeds `lastProgressUpdate`, with percent
`Math.min(Math.round((currentTime / totalDuration) * 100), 100)`. -/
def processLine (st : HandlerState) (line : String) : HandlerState × Option ProgressEvent :=
  let st1 : HandlerState :=
    { st with transcription := st.transcription ++ line ++ "\n" }
  match bracketMatch line with
  | none => (st1, none)
  | some m =>
    let currentTime := parseTimestamp (endTimeStr m)
    match st1.totalDuration with
    | some total =>
      if total ≠ 0 ∧ currentTime > st1.lastProgressUpdate then
        ({ st1 with lastProgressUpdate := currentTime },
          some (.update currentTime (min (jsRound (currentTime / total * 100)) 100)))
      else (st1, some .working)
    | none => (st1, some .working)

/-- The elapsed values actually applied as progress over a sequence of lines. -/
def appliedValues : HandlerState → List String → List ℚ
  | _, [] => []
  | st, line :: rest =>
    match (processLine st line).2 with
    | some (ProgressEvent.update c _) => c :: appliedValues (processLine st line).1 rest
    | _ => appliedValues (processLine st line).1 rest

/-- Whether a notification is a percent progress update. -/
def isPercentUpdate : Option ProgressEvent → Bool
  | some (ProgressEvent.update _ _) => true
  | _ => false

/-! ## The recognizer invocation (part_001 lines 249-257 and its duplicate
part_002 lines 254-262). -/

/-- The model id of the primary runner revision (part_001 line 252): a fixed
string, independent of the configured model size. -/
def modelIdV1 : String := "mlx-community/whisper-large-v3-turbo"

/-- The model id of the duplicate runner revision (part_002 line 257):
interpolates the configured model size. -/
def modelIdV2 (modelSize : String) : String :=
  "mlx-community/whisper-" ++ modelSize ++ "-v3-turbo"

/-- The argument vector of the primary runner revision. `modelSize` is received
(the settings object carries it) but unused. -/
def whisperCommandV1 (mlxPath audioPath tempDir language modelSize : String) : List String :=
  [mlxPath, audioPath,
   "--model", modelIdV1,
   "--language", language,
   "--output-format", "txt",
   "--output-dir", tempDir,
   "--condition-on-previous-text", "False"]

/-- The argument vector of the duplicate runner revision. -/
def whisperCommandV2 (mlxPath audioPath tempDir language modelSize : String) : List String :=
  [mlxPath, audioPath,
   "--model", modelIdV2 modelSize,
   "--language", language,
   "--output-format", "txt",
   "--output-dir", tempDir,
   "--verbose", "False"]

/-! ## Failure taxonomy and the pre-spawn / close phases of
`runTranscription`. -/

/-- The rejection reasons of the pipeline that the claims mention. -/
inductive RunError where
  | dependencyMissing (path : String)
  | resultArtifactMissing
  | readBackFailed (path : String)
  | transcriptionFailed (msg : String)
deriving DecidableEq, Repr

/-- Outcome of the phase of `runTranscription` up to and including `spawn`
(part_001 lines 236-268): either a rejection before any process exists, or the
spawned interpreter and argument vector. -/
inductive SpawnOutcome where
  | failed (e : RunError)
  | spawned (interpreter : String) (args : List String)
deriving DecidableEq, Repr

/-- Existence checks and spawn (part_001 lines 236-268): `mlx_whisper` first,
then the venv `python3`, each rejecting before `spawn` when absent. -/
def runTranscriptionSpawn (home audioPath tempDir language modelSize : String)
    (existsOnDisk : String → Bool) : SpawnOutcome :=
  if existsOnDisk (mlxWhisperPath home) = false then
    .failed (.dependencyMissing (mlxWhisperPath home))
  else if existsOnDisk (venvPython home) = false then
    .failed (.dependencyMissing (venvPython home))
  else
    .spawned (venvPython home)
      (whisperCommandV1 (mlxWhisperPath home) audioPath tempDir language modelSize)

/-- Whether a child process handle was created. -/
def isSpawned : SpawnOutcome → Bool
  | .spawned _ _ => true
  | .failed _ => false

/-- Whether the outcome is a dependency-missing rejection. -/
def isDependencyFailure : SpawnOutcome → Bool
  | .failed (.dependencyMissing _) => true
  | _ => false

/-- The output artifact path (part_001 lines 247-248):
`path.join(tempDir, basename-without-extension + ".txt")`. -/
def outputPath (tempDir audioPath : String) : String :=
  pathJoin tempDir (pathBasename audioPath (pathExtname audioPath) ++ ".txt")

/-- List-level substring test (JS `String.prototype.includes`). -/
def listContainsSub (pat : List Char) : List Char → Bool
  | [] => pat.isEmpty
  | c :: t => pat.isPrefixOf (c :: t) || listContainsSub pat t

/-- The capture of `/Error: (.*?)$/m`: the text after the first `"Error: "`
occurrence up to the end of its line, when present. -/
def matchErrorCapture : List Char → Option (List Char)
  | [] => none
  | c :: t =>
    if ("Error: ".data).isPrefixOf (c :: t) then
      some (((c :: t).drop 7).takeWhile (· ≠ '\n'))
    else matchErrorCapture t

/-- The failure message of the nonzero-exit branch (part_001 lines 378-380):
the first `Error:` line's capture when the accumulator contains `Error:`
(falling back to `"Unknown error"` when the capture is missing or empty), else
the raw accumulator. -/
def errorMsgOf (transcription : String) : String :=
  if listContainsSub "Error:".data transcription.data then
    match matchErrorCapture transcription.data with
    | some cap => if cap.isEmpty then "Unknown error" else String.mk cap
    | none => "Unknown error"
  else transcription

/-- JS `String.prototype.trim` (ASCII whitespace). -/
def jsTrim (s : String) : String :=
  String.mk (((s.data.dropWhile jsIsSpace).reverse.dropWhile jsIsSpace).reverse)

/-- A file-system image: an association list from path to contents. -/
abbrev FsImage := List (String × String)

/-- The `close` handler of `runTranscription` (part_001 lines 356-384): on exit
code 0 the output artifact is read and its trimmed contents resolve the run
(its absence rejects with the artifact-missing error); on nonzero exit the run
rejects with the extracted failure message. -/
def runCloseHandler (tempDir audioPath : String) (fs : FsImage) (transcription : String)
    (code : ℤ) : Except RunError String :=
  if code = 0 then
    match fs.lookup (outputPath tempDir audioPath) with
    | some content => .ok (jsTrim content)
    | none => .error .resultArtifactMissing
  else .error (.transcriptionFailed (errorMsgOf transcription))

/-! ## The post-recognition tail of `processAudioBlob`
(part_001 lines 110-124). -/

/-- `fs.unlinkSync`: removes the entry when present, throws (`none`) when
absent. -/
def fsUnlink (fs : FsImage) (p : String) : Option FsImage :=
  if (fs.lookup p).isSome then some (fs.filter (fun e => e.1 != p)) else none

/-- The `try` block around the three `unlinkSync` calls: deletions run in
order, the first throw abandons the remaining ones, and the surrounding
`catch` only logs. -/
def cleanupChain : FsImage → List String → FsImage
  | fs, [] => fs
  | fs, p :: ps =>
    match fsUnlink fs p with
    | some fs1 => cleanupChain fs1 ps
    | none => fs

/-- Lines 110-124 after `runTranscription` resolves: `readFileSync` of the
temporary mp3 (throwing past the cleanup block when it fails), then the
best-effort deletion of the raw input, the wav and the mp3, then the result
object. -/
def processTail (fs : FsImage) (tempFilePath wavPath tempMp3Path : String)
    (transcription : String) : Except RunError (String × String) × FsImage :=
  match fs.lookup tempMp3Path with
  | none => (.error (.readBackFailed tempMp3Path), fs)
  | some mp3Buffer =>
    (.ok (transcription, mp3Buffer), cleanupChain fs [tempFilePath, wavPath, tempMp3Path])

/-! ## Archive-directory resolution (part_001 lines 82-92): `main.ts` passes
`adapter.getBasePath()` (the vault base) as `pluginDir`. -/

/-- Lines 82-89: `vaultBasePath = path.resolve(path.dirname(pluginDir))`, then
an absolute `audioDir` is kept and a relative one is joined onto
`vaultBasePath`. -/
def resolveArchiveDir (pluginDir audioDir : String) : String :=
  let vaultBasePath := pathResolve (pathDirname pluginDir)
  if pathIsAbsolute audioDir then audioDir else pathJoin vaultBasePath audioDir

/-! ## The process supervisor (part_001 lines 8-51): the single
`currentFfmpegCommand` / `currentChildProcess` slots and `cancelProcessing`.
Handles are numbered; `signaled` records, in order, the handles that received
`SIGTERM`. -/

/-- Supervisor slots plus the trace of termination signals sent. -/
structure SupervisorState where
  currentFfmpegCommand : Option ℕ
  currentChildProcess : Option ℕ
  signaled : List ℕ
deriving DecidableEq, Repr

/-- The assignment `this.currentFfmpegCommand = ffmpeg(...)` performed by each
conversion when it starts (part_001 lines 144 and 169). -/
def registerFfmpegCommand (st : SupervisorState) (h : ℕ) : SupervisorState :=
  { st with currentFfmpegCommand := some h }

/-- `cancelProcessing` (part_001 lines 31-51): `SIGTERM` to the tracked ffmpeg
command, then to the tracked whisper process, clearing each slot. -/
def cancelProcessing (st : SupervisorState) : SupervisorState :=
  let st1 :=
    match st.currentFfmpegCommand with
    | some h => { st with signaled := st.signaled ++ [h], currentFfmpegCommand := none }
    | none => st
  match st1.currentChildProcess with
  | some h => { st1 with signaled := st1.signaled ++ [h], currentChildProcess := none }
  | none => st1

/-- `Promise.all([convertToMp3 ..., convertToWav ...])` (part_001 lines 76-79):
both executors run when the stage starts; the mp3 conversion registers its
command first, the wav conversion second, so the wav handle overwrites the mp3
handle in the single slot. -/
def startTranscodeStage (st : SupervisorState) (mp3Handle wavHandle : ℕ) : SupervisorState :=
  registerFfmpegCommand (registerFfmpegCommand st mp3Handle) wavHandle

/-! ## Helper lemmas. -/

theorem isDigit_digitChar : ∀ d, d < 10 → (digitChar d).isDigit = true := by decide

theorem digitVal_digitChar : ∀ d, d < 10 → digitVal (digitChar d) = d := by decide

theorem val2_digitChar (n : ℕ) (hn : n ≤ 99) :
    val2 (digitChar (n / 10)) (digitChar (n % 10)) = n := by
  unfold val2
  rw [digitVal_digitChar _ (by omega), digitVal_digitChar _ (by omega)]
  omega

theorem val3_digitChar (n : ℕ) (hn : n ≤ 999) :
    val3 (digitChar (n / 100)) (digitChar (n / 10 % 10)) (digitChar (n % 10)) = n := by
  unfold val3
  rw [digitVal_digitChar _ (by omega), digitVal_digitChar _ (by omega),
    digitVal_digitChar _ (by omega)]
  omega

/-! Theorems for the claims, in claim order where dependencies allow. -/

/-- C1 (code bug evidence): after the transcode stage starts both conversions,
the single ffmpeg slot holds only the wav conversion's handle; cancellation
therefore signals the wav conversion alone and the mp3 conversion's process
never receives `SIGTERM`, contrary to the claim that both concurrent
conversions are terminated. -/
theorem cancel_signals_only_wav_conversion :
    (startTranscodeStage ⟨none, none, []⟩ 1 2).currentFfmpegCommand = some 2
  ∧ (cancelProcessing (startTranscodeStage ⟨none, none, []⟩ 1 2)).signaled = [2]
  ∧ 1 ∉ (cancelProcessing (startTranscodeStage ⟨none, none, []⟩ 1 2)).signaled := by
  refine ⟨rfl, rfl, ?_⟩
  decide

/-- C2 (code bug evidence): with the caller's base directory `/vault` and the
relative archive directory `04_assets/audio`, the code resolves the archive
directory against `path.dirname("/vault") = "/"`, producing `/04_assets/audio`
instead of the claimed `/vault/04_assets/audio`. -/
theorem archive_dir_resolved_against_parent :
    resolveArchiveDir "/vault" "04_assets/audio" = "/04_assets/audio"
  ∧ resolveArchiveDir "/vault" "04_assets/audio" ≠ "/vault/04_assets/audio" := by
  refine ⟨?_, ?_⟩ <;> decide

/-- C3 counterexample: in the primary runner revision the argument after
`--model` is the fixed id `mlx-community/whisper-large-v3-turbo`, which does
not contain the requested model size `small`, refuting the claim for that
request. -/
theorem primary_runner_model_id_ignores_model_size :
    (whisperCommandV1 "/v/bin/mlx_whisper" "/tmp/a.wav" "/tmp" "en" "small")[2]? = some "--model"
  ∧ (whisperCommandV1 "/v/bin/mlx_whisper" "/tmp/a.wav" "/tmp" "en" "small")[3]? = some modelIdV1
  ∧ ¬ ("small".data <:+: modelIdV1.data) := by
  refine ⟨rfl, rfl, ?_⟩
  decide

/-- C3 (amended): the duplicate runner's model id contains the requested model
size, the primary runner always passes the fixed id
`mlx-community/whisper-large-v3-turbo`, and both revisions pass `--language`
followed by the requested language code. -/
theorem runner_command_language_and_model_id
    (mlxPath audioPath tempDir language modelSize : String) :
    modelSize.data <:+: (modelIdV2 modelSize).data
  ∧ ["--model", modelIdV1] <:+: whisperCommandV1 mlxPath audioPath tempDir language modelSize
  ∧ ["--language", language] <:+: whisperCommandV1 mlxPath audioPath tempDir language modelSize
  ∧ ["--model", modelIdV2 modelSize] <:+: whisperCommandV2 mlxPath audioPath tempDir language modelSize
  ∧ ["--language", language] <:+: whisperCommandV2 mlxPath audioPath tempDir language modelSize := by
  refine ⟨⟨"mlx-community/whisper-".data, "-v3-turbo".data, ?_⟩,
    ⟨[mlxPath, audioPath], ["--language", language, "--output-format", "txt",
      "--output-dir", tempDir, "--condition-on-previous-text", "False"], rfl⟩,
    ⟨[mlxPath, audioPath, "--model", modelIdV1], ["--output-format", "txt",
      "--output-dir", tempDir, "--condition-on-previous-text", "False"], rfl⟩,
    ⟨[mlxPath, audioPath], ["--language", language, "--output-format", "txt",
      "--output-dir", tempDir, "--verbose", "False"], rfl⟩,
    ⟨[mlxPath, audioPath, "--model", modelIdV2 modelSize], ["--output-format", "txt",
      "--output-dir", tempDir, "--verbose", "False"], rfl⟩⟩
  simp [modelIdV2]

/-- C9: when the recognizer executable or its interpreter is absent, the runner
rejects with a dependency-missing error and no child process handle is
created. -/
theorem missing_dependency_fails_before_spawn
    (home audioPath tempDir language modelSize : String) (existsOnDisk : String → Bool)
    (h : existsOnDisk (mlxWhisperPath home) = false ∨ existsOnDisk (venvPython home) = false) :
    isSpawned (runTranscriptionSpawn home audioPath tempDir language modelSize existsOnDisk) = false
  ∧ isDependencyFailure
      (runTranscriptionSpawn home audioPath tempDir language modelSize existsOnDisk) = true := by
  unfold runTranscriptionSpawn
  rcases h with h | h
  · simp [h, isSpawned, isDependencyFailure]
  · by_cases h1 : existsOnDisk (mlxWhisperPath home) = false
    · simp [h1, isSpawned, isDependencyFailure]
    · simp [h1, h, isSpawned, isDependencyFailure]

/-- C9 witness: the pre-spawn checks at a concrete request over an empty disk. -/
theorem missing_dependency_fails_before_spawn_witness :
    isSpawned (runTranscriptionSpawn "/home/u" "/tmp/a.wav" "/tmp" "ja" "base"
      (fun _ => false)) = false
  ∧ isDependencyFailure (runTranscriptionSpawn "/home/u" "/tmp/a.wav" "/tmp" "ja" "base"
      (fun _ => false)) = true :=
  missing_dependency_fails_before_spawn "/home/u" "/tmp/a.wav" "/tmp" "ja" "base"
    (fun _ => false) (Or.inl rfl)

/-- Floor of `(N + f) / d` for natural `N`, positive natural `d` and a
fractional part `f ∈ [0, 1)` is natural division. -/
theorem floor_div_natAdd (N d : ℕ) (f : ℚ) (hd : 0 < d) (hf0 : 0 ≤ f) (hf1 : f < 1) :
    ⌊((N : ℚ) + f) / (d : ℚ)⌋ = ((N / d : ℕ) : ℤ) := by
  have hdq : (0 : ℚ) < (d : ℚ) := by exact_mod_cast hd
  have h1 : N / d * d ≤ N := Nat.div_mul_le_self N d
  have hdm : d * (N / d) + N % d = N := Nat.div_add_mod N d
  have hmod : N % d < d := Nat.mod_lt _ hd
  have h2 : N < d * (N / d) + d := by
    conv_lhs => rw [← hdm]
    exact Nat.add_lt_add_left hmod _
  have h1q : ((N / d : ℕ) : ℚ) * (d : ℚ) ≤ (N : ℚ) := by exact_mod_cast h1
  have h2q : (N : ℚ) + 1 ≤ (d : ℚ) * ((N / d : ℕ) : ℚ) + (d : ℚ) := by
    exact_mod_cast Nat.succ_le_of_lt h2
  rw [Int.floor_eq_iff]
  constructor
  · rw [le_div_iff₀ hdq, Int.cast_natCast]
    linarith
  · rw [div_lt_iff₀ hdq, Int.cast_natCast]
    linarith

/-- `jsMod` of `N + f` by a positive natural is `N % d` plus the fraction. -/
theorem jsMod_natAdd (N d : ℕ) (f : ℚ) (hd : 0 < d) (hf0 : 0 ≤ f) (hf1 : f < 1) :
    jsMod ((N : ℚ) + f) (d : ℚ) = ((N % d : ℕ) : ℚ) + f := by
  unfold jsMod
  rw [floor_div_natAdd N d f hd hf0 hf1]
  have hdm : d * (N / d) + N % d = N := Nat.div_add_mod N d
  have hq : (d : ℚ) * ((N / d : ℕ) : ℚ) + ((N % d : ℕ) : ℚ) = (N : ℚ) := by exact_mod_cast hdm
  rw [Int.cast_natCast]
  linarith

/-- Floor of a natural plus a fraction in `[0, 1)`. -/
theorem floor_natCast_add_frac (k : ℕ) (f : ℚ) (hf0 : 0 ≤ f) (hf1 : f < 1) :
    ⌊(k : ℚ) + f⌋ = (k : ℤ) := by
  rw [add_comm, Int.floor_add_nat]
  have hz : ⌊f⌋ = 0 := by
    rw [Int.floor_eq_zero_iff]
    exact ⟨hf0, hf1⟩
  rw [hz, zero_add]

/-- `formatTime` on a value `3600h + 60m + s` plus a fraction in `[0, 1)`,
with in-range minutes and seconds, prints exactly the components. -/
theorem formatTime_components (h m s : ℕ) (f : ℚ) (hm : m < 60) (hs : s < 60)
    (hf0 : 0 ≤ f) (hf1 : f < 1) :
    formatTime (((3600 * h + 60 * m + s : ℕ) : ℚ) + f) = displayHMS h m s := by
  have e3600 : ((3600 : ℕ) : ℚ) = (3600 : ℚ) := by norm_num
  have e60 : ((60 : ℕ) : ℚ) = (60 : ℚ) := by norm_num
  have hfl1 : ⌊(((3600 * h + 60 * m + s : ℕ) : ℚ) + f) / (3600 : ℚ)⌋
      = (((3600 * h + 60 * m + s) / 3600 : ℕ) : ℤ) := by
    rw [← e3600]
    exact floor_div_natAdd _ 3600 f (by norm_num) hf0 hf1
  have hdiv1 : (3600 * h + 60 * m + s) / 3600 = h := by omega
  have hmod1 : (3600 * h + 60 * m + s) % 3600 = 60 * m + s := by omega
  have hmod2 : (3600 * h + 60 * m + s) % 60 = s := by omega
  have hjm1 : jsMod (((3600 * h + 60 * m + s : ℕ) : ℚ) + f) (3600 : ℚ)
      = ((60 * m + s : ℕ) : ℚ) + f := by
    rw [← e3600, jsMod_natAdd _ 3600 f (by norm_num) hf0 hf1, hmod1]
  have hfl2 : ⌊(((60 * m + s : ℕ) : ℚ) + f) / (60 : ℚ)⌋ = (((60 * m + s) / 60 : ℕ) : ℤ) := by
    rw [← e60]
    exact floor_div_natAdd _ 60 f (by norm_num) hf0 hf1
  have hdiv2 : (60 * m + s) / 60 = m := by omega
  have hjm2 : jsMod (((3600 * h + 60 * m + s : ℕ) : ℚ) + f) (60 : ℚ) = ((s : ℕ) : ℚ) + f := by
    rw [← e60, jsMod_natAdd _ 60 f (by norm_num) hf0 hf1, hmod2]
  have hfl3 : ⌊((s : ℕ) : ℚ) + f⌋ = ((s : ℕ) : ℤ) := floor_natCast_add_frac s f hf0 hf1
  simp only [formatTime]
  rw [hfl1, hdiv1, hjm1, hfl2, hdiv2, hjm2, hfl3]
  simp only [Int.toNat_natCast]
  unfold displayHMS
  by_cases hh : 0 < h
  · rw [if_pos (by exact_mod_cast hh : (0 : ℤ) < (h : ℤ)), if_pos hh]
  · rw [if_neg (by exact_mod_cast hh : ¬ (0 : ℤ) < (h : ℤ)), if_neg hh]

/-- The timestamp regex accepts every rendered valid timestamp and recovers its
components. -/
theorem parseTimestampAux_renderTs (h : Option ℕ) (m s ms : ℕ)
    (hh : h.getD 0 ≤ 99) (hm : m ≤ 99) (hs : s ≤ 99) (hms : ms ≤ 999) :
    parseTimestampAux (renderTs h m s ms) = some (h.getD 0, m, s, ms) := by
  cases h with
  | some hv =>
    have hv99 : hv ≤ 99 := hh
    simp only [renderTs, parseTimestampAux, Option.getD,
      isDigit_digitChar _ (show hv / 10 < 10 by omega),
      isDigit_digitChar _ (show hv % 10 < 10 by omega),
      isDigit_digitChar _ (show m / 10 < 10 by omega),
      isDigit_digitChar _ (show m % 10 < 10 by omega),
      isDigit_digitChar _ (show s / 10 < 10 by omega),
      isDigit_digitChar _ (show s % 10 < 10 by omega),
      isDigit_digitChar _ (show ms / 100 < 10 by omega),
      isDigit_digitChar _ (show ms / 10 % 10 < 10 by omega),
      isDigit_digitChar _ (show ms % 10 < 10 by omega),
      Bool.and_self, Bool.true_and, if_true]
    rw [val2_digitChar hv hv99, val2_digitChar m hm, val2_digitChar s hs, val3_digitChar ms hms]
  | none =>
    simp only [renderTs, parseTimestampAux, Option.getD,
      isDigit_digitChar _ (show m / 10 < 10 by omega),
      isDigit_digitChar _ (show m % 10 < 10 by omega),
      isDigit_digitChar _ (show s / 10 < 10 by omega),
      isDigit_digitChar _ (show s % 10 < 10 by omega),
      isDigit_digitChar _ (show ms / 100 < 10 by omega),
      isDigit_digitChar _ (show ms / 10 % 10 < 10 by omega),
      isDigit_digitChar _ (show ms % 10 < 10 by omega),
      Bool.and_self, Bool.true_and, if_true]
    rw [val2_digitChar m hm, val2_digitChar s hs, val3_digitChar ms hms]

/-- `parseTimestamp` on a rendered valid timestamp is the source's arithmetic
combination of its components. -/
theorem parseTimestamp_renderTs (h : Option ℕ) (m s ms : ℕ)
    (hh : h.getD 0 ≤ 99) (hm : m ≤ 99) (hs : s ≤ 99) (hms : ms ≤ 999) :
    parseTimestamp (renderTs h m s ms)
      = ((h.getD 0 : ℕ) : ℚ) * 3600 + (m : ℚ) * 60 + (s : ℚ) + (ms : ℚ) / 1000 := by
  unfold parseTimestamp
  rw [parseTimestampAux_renderTs h m s ms hh hm hs hms]

/-- C4 counterexample: the valid hour-less timestamp `05:07.123` parses to
`307.123` seconds, but `formatTime` renders it as `5:07` while the input
truncated to whole seconds reads `05:07` — the round trip does not reproduce
the input's zero-padded display form. -/
theorem format_parse_roundtrip_padding_mismatch :
    formatTime (parseTimestamp "05:07.123") = "5:07" ∧ "5:07" ≠ "05:07" := by
  have haux : parseTimestampAux "05:07.123" = some (0, 5, 7, 123) := by decide
  have hval : parseTimestamp "05:07.123" = ((3600 * 0 + 60 * 5 + 7 : ℕ) : ℚ) + (123 : ℚ) / 1000 := by
    unfold parseTimestamp
    rw [haux]
    push_cast
    norm_num
  constructor
  · rw [hval,
      formatTime_components 0 5 7 ((123 : ℚ) / 1000) (by norm_num) (by norm_num)
        (by norm_num) (by norm_num)]
    decide
  · decide

/-- C4 (amended): for every valid `[HH:]MM:SS.mmm` timestamp (hours present or
absent), `parseTimestamp` returns exactly
`hours*3600 + minutes*60 + seconds + millis/1000`; and whenever minutes and
seconds are below 60, `formatTime` of the parsed value renders the same
hour/minute/second components in the `[H:]M:SS` form whose leading component
is unpadded (hours shown only when positive) — not the input's own zero-padded
digits. -/
theorem parse_timestamp_value_and_display (h : Option ℕ) (m s ms : ℕ)
    (hh : h.getD 0 ≤ 99) (hm : m ≤ 99) (hs : s ≤ 99) (hms : ms ≤ 999) :
    parseTimestamp (renderTs h m s ms)
        = ((h.getD 0 : ℕ) : ℚ) * 3600 + (m : ℚ) * 60 + (s : ℚ) + (ms : ℚ) / 1000
  ∧ (m < 60 → s < 60 →
      formatTime (parseTimestamp (renderTs h m s ms)) = displayHMS (h.getD 0) m s) := by
  have hval := parseTimestamp_renderTs h m s ms hh hm hs hms
  refine ⟨hval, fun hm60 hs60 => ?_⟩
  have hf0 : (0 : ℚ) ≤ (ms : ℚ) / 1000 := by positivity
  have hf1 : (ms : ℚ) / 1000 < 1 := by
    rw [div_lt_one (by norm_num)]
    exact_mod_cast Nat.lt_succ_of_le hms
  have hval2 : parseTimestamp (renderTs h m s ms)
      = ((3600 * h.getD 0 + 60 * m + s : ℕ) : ℚ) + (ms : ℚ) / 1000 := by
    rw [hval]
    push_cast
    ring
  rw [hval2, formatTime_components (h.getD 0) m s ((ms : ℚ) / 1000) hm60 hs60 hf0 hf1]

/-- C4 witness: the amended statement applied to `01:02:03.456`. -/
theorem parse_timestamp_value_and_display_witness :
    parseTimestamp (renderTs (some 1) 2 3 456)
        = ((1 : ℕ) : ℚ) * 3600 + ((2 : ℕ) : ℚ) * 60 + ((3 : ℕ) : ℚ) + ((456 : ℕ) : ℚ) / 1000
  ∧ formatTime (parseTimestamp (renderTs (some 1) 2 3 456)) = displayHMS 1 2 3 := by
  have h := parse_timestamp_value_and_display (some 1) 2 3 456 (by decide) (by decide)
    (by decide) (by decide)
  exact ⟨h.1, h.2 (by decide) (by decide)⟩

/-- `parseTimestamp` never returns a negative value. -/
theorem parseTimestamp_nonneg (s : String) : 0 ≤ parseTimestamp s := by
  rcases hp : parseTimestampAux s with _ | ⟨h, m, sec, ms⟩
  · simp [parseTimestamp, hp]
  · simp only [parseTimestamp, hp]
    positivity

/-- The code's `Math.min(Math.round(x * 100), 100)` agrees with the spec's
`round(min(x, 1) * 100)` on nonnegative ratios. -/
theorem min_jsRound_eq (x : ℚ) :
    min (jsRound (x * 100)) 100 = jsRound (min x 1 * 100) := by
  unfold jsRound
  rcases le_or_lt x 1 with hle | hlt
  · rw [min_eq_left hle]
    have hfl : ⌊x * 100 + 1 / 2⌋ ≤ 100 := by
      have hb : x * 100 + 1 / 2 ≤ (201 : ℚ) / 2 := by linarith
      have h1 := Int.floor_le_floor hb
      have h201 : ⌊(201 : ℚ) / 2⌋ = 100 := by norm_num
      omega
    rw [min_eq_left hfl]
  · rw [min_eq_right hlt.le]
    have h100 : (100 : ℤ) ≤ ⌊x * 100 + 1 / 2⌋ := by
      apply Int.le_floor.mpr
      push_cast
      linarith
    rw [min_eq_right h100]
    norm_num


/-- Unfolding equation for `processLine`. -/
theorem processLine_eq (st : HandlerState) (line : String) :
    processLine st line =
      match bracketMatch line with
      | none => ({ st with transcription := st.transcription ++ line ++ "\n" }, none)
      | some m =>
        match st.totalDuration with
        | some total =>
          if total ≠ 0 ∧ parseTimestamp (endTimeStr m) > st.lastProgressUpdate then
            ({ st with
                transcription := st.transcription ++ line ++ "\n"
                lastProgressUpdate := parseTimestamp (endTimeStr m) },
              some (ProgressEvent.update (parseTimestamp (endTimeStr m))
                (min (jsRound (parseTimestamp (endTimeStr m) / total * 100)) 100)))
          else ({ st with transcription := st.transcription ++ line ++ "\n" },
            some ProgressEvent.working)
        | none => ({ st with transcription := st.transcription ++ line ++ "\n" },
          some ProgressEvent.working) := rfl

/-- Case analysis of one handler step: silence, the still-working notice, or a
guarded percent update. -/
theorem processLine_shape (st : HandlerState) (line : String) :
    processLine st line = ({ st with transcription := st.transcription ++ line ++ "\n" }, none)
  ∨ processLine st line = ({ st with transcription := st.transcription ++ line ++ "\n" },
      some ProgressEvent.working)
  ∨ ∃ m total, bracketMatch line = some m ∧ st.totalDuration = some total ∧ total ≠ 0
      ∧ parseTimestamp (endTimeStr m) > st.lastProgressUpdate
      ∧ processLine st line =
          ({ st with
              transcription := st.transcription ++ line ++ "\n"
              lastProgressUpdate := parseTimestamp (endTimeStr m) },
            some (ProgressEvent.update (parseTimestamp (endTimeStr m))
              (min (jsRound (parseTimestamp (endTimeStr m) / total * 100)) 100))) := by
  cases hbm : bracketMatch line with
  | none =>
    left
    rw [processLine_eq, hbm]
  | some m =>
    cases htd : st.totalDuration with
    | none =>
      right; left
      rw [processLine_eq, hbm, htd]
    | some total =>
      by_cases hc : total ≠ 0 ∧ parseTimestamp (endTimeStr m) > st.lastProgressUpdate
      · right; right
        refine ⟨m, total, rfl, rfl, hc.1, hc.2, ?_⟩
        rw [processLine_eq, hbm, htd]
        exact if_pos hc
      · right; left
        rw [processLine_eq, hbm, htd]
        exact if_neg hc

/-- A percent update is emitted only when the parsed end time strictly exceeds
`lastProgressUpdate`, and the new state records exactly that time. -/
theorem processLine_update_gate (st : HandlerState) (line : String) (c : ℚ) (p : ℤ)
    (hev : (processLine st line).2 = some (ProgressEvent.update c p)) :
    st.lastProgressUpdate < c ∧ (processLine st line).1.lastProgressUpdate = c := by
  rcases processLine_shape st line with h | h | ⟨m, total, hbm, htd, hne, hgt, h⟩
  · rw [h] at hev
    simp at hev
  · rw [h] at hev
    simp at hev
  · rw [h] at hev
    replace hev : some (ProgressEvent.update (parseTimestamp (endTimeStr m))
        (min (jsRound (parseTimestamp (endTimeStr m) / total * 100)) 100))
        = some (ProgressEvent.update c p) := hev
    injection hev with hev1
    injection hev1 with hc1 hp1
    constructor
    · rw [← hc1]
      exact hgt
    · rw [h]
      exact hc1

/-- A line that emits no percent update leaves `lastProgressUpdate`
unchanged. -/
theorem processLine_keep (st : HandlerState) (line : String)
    (h : ∀ c p, (processLine st line).2 ≠ some (ProgressEvent.update c p)) :
    (processLine st line).1.lastProgressUpdate = st.lastProgressUpdate := by
  rcases processLine_shape st line with heq | heq | ⟨m, total, hbm, htd, hne, hgt, heq⟩
  · rw [heq]
  · rw [heq]
  · exact absurd (by rw [heq] :
      (processLine st line).2 = some (ProgressEvent.update (parseTimestamp (endTimeStr m))
        (min (jsRound (parseTimestamp (endTimeStr m) / total * 100)) 100))) (h _ _)

/-- The percent carried by an update event is the code's clamped rounding of
`currentTime / totalDuration`, and the carried time is nonnegative. -/
theorem processLine_update_percent (st : HandlerState) (line : String) (total c : ℚ) (p : ℤ)
    (htd : st.totalDuration = some total)
    (hev : (processLine st line).2 = some (ProgressEvent.update c p)) :
    p = min (jsRound (c / total * 100)) 100 ∧ 0 ≤ c := by
  rcases processLine_shape st line with h | h | ⟨m, total2, hbm, htd2, hne, hgt, h⟩
  · rw [h] at hev
    simp at hev
  · rw [h] at hev
    simp at hev
  · rw [htd] at htd2
    have htot : total = total2 := Option.some.inj htd2
    subst htot
    rw [h] at hev
    replace hev : some (ProgressEvent.update (parseTimestamp (endTimeStr m))
        (min (jsRound (parseTimestamp (endTimeStr m) / total * 100)) 100))
        = some (ProgressEvent.update c p) := hev
    injection hev with hev1
    injection hev1 with hc1 hp1
    constructor
    · rw [← hp1, ← hc1]
    · rw [← hc1]
      exact parseTimestamp_nonneg _

/-- Concrete evaluation of the handler on the scenario line with total
duration 10 s: the line is appended to the accumulator, but because lines
315-317 fall back to regex groups 2-3 when the end hour is absent, the START
timestamp 1.5 s is parsed and applied, and the percent reported is 15 — not
the 42 the end timestamp 4.2 s would give. -/
theorem processLine_hello :
    processLine ⟨"", some 10, 0⟩ "[00:01.500 --> 00:04.200]  hello world"
      = (⟨"[00:01.500 --> 00:04.200]  hello world\n", some 10, 3 / 2⟩,
         some (ProgressEvent.update (3 / 2) 15)) := by
  have hbm : bracketMatch "[00:01.500 --> 00:04.200]  hello world"
      = some ⟨none, "00", "01.500", none, "00", "04.200"⟩ := by decide
  have haux : parseTimestampAux ("00" ++ ":" ++ "01.500") = some (0, 0, 1, 500) := by decide
  have hval : parseTimestamp ("00" ++ ":" ++ "01.500") = 3 / 2 := by
    unfold parseTimestamp
    rw [haux]
    norm_num
  have hpct : min (jsRound ((3 : ℚ) / 2 / 10 * 100)) 100 = 15 := by
    unfold jsRound
    have h1 : (3 : ℚ) / 2 / 10 * 100 + 1 / 2 = 31 / 2 := by norm_num
    rw [h1]
    have h2 : ⌊(31 : ℚ) / 2⌋ = 15 := by norm_num
    rw [h2]
    decide
  simp only [processLine, hbm, endTimeStr, hval]
  rw [if_pos (⟨by norm_num, by norm_num⟩ : (10 : ℚ) ≠ 0 ∧ (3 : ℚ) / 2 > (0 : ℚ))]
  rw [hpct]
  rfl

/-- C5: a parsed end timestamp is applied as progress only when strictly
greater than the last applied value, so over any line sequence the applied
elapsed values are strictly increasing — progress never moves backward. -/
theorem applied_progress_strictly_increasing :
    (∀ st line c p, (processLine st line).2 = some (ProgressEvent.update c p) →
      st.lastProgressUpdate < c)
  ∧ ∀ st lines, List.Pairwise (· < ·) (appliedValues st lines) := by
  have chain : ∀ (lines : List String) (st : HandlerState),
      List.Chain' (· < ·) (st.lastProgressUpdate :: appliedValues st lines) := by
    intro lines
    induction lines with
    | nil =>
      intro st
      simp [appliedValues]
    | cons line rest ih =>
      intro st
      cases hev : (processLine st line).2 with
      | none =>
        have hkeep := processLine_keep st line (by simp [hev])
        have h2 := ih (processLine st line).1
        rw [hkeep] at h2
        simpa [appliedValues, hev] using h2
      | some ev =>
        cases ev with
        | working =>
          have hkeep := processLine_keep st line (by simp [hev])
          have h2 := ih (processLine st line).1
          rw [hkeep] at h2
          simpa [appliedValues, hev] using h2
        | update c p =>
          obtain ⟨hlt, hset⟩ := processLine_update_gate st line c p hev
          have h2 := ih (processLine st line).1
          rw [hset] at h2
          simp only [appliedValues, hev]
          exact List.chain'_cons.mpr ⟨hlt, h2⟩
  constructor
  · intro st line c p hev
    exact (processLine_update_gate st line c p hev).1
  · intro st lines
    have hp := List.chain'_iff_pairwise.mp (chain lines st)
    exact (List.pairwise_cons.mp hp).2

/-- C5 witness: the gate and the monotone sequence at the scenario line. -/
theorem applied_progress_strictly_increasing_witness :
    (0 : ℚ) < 3 / 2
  ∧ List.Pairwise (· < ·)
      (appliedValues ⟨"", some 10, 0⟩ ["[00:01.500 --> 00:04.200]  hello world"]) := by
  refine ⟨applied_progress_strictly_increasing.1 ⟨"", some 10, 0⟩
      "[00:01.500 --> 00:04.200]  hello world" (3 / 2) 15 ?_,
    applied_progress_strictly_increasing.2 ⟨"", some 10, 0⟩ _⟩
  rw [processLine_hello]

/-- C6 (code bug evidence): for every emitted update the reported percent does
equal `round(min(applied/total, 1) * 100)` and lies in `[0, 100]` even when the
applied time exceeds the total; but on the scenario line with total duration
10 s the code applies the START timestamp — lines 315-317 fall back to regex
groups 2-3 when the end hour is absent, against their own use-the-end-time
comment — so it reports percent 15, not the claimed 42, which parsing the end
timestamp 4.2 s would have produced. The line is still appended to the
transcript accumulator. -/
theorem percent_formula_and_start_timestamp_slip :
    (∀ st line total c p, st.totalDuration = some total → 0 < total →
        (processLine st line).2 = some (ProgressEvent.update c p) →
        p = jsRound (min (c / total) 1 * 100) ∧ 0 ≤ p ∧ p ≤ 100)
  ∧ processLine ⟨"", some 10, 0⟩ "[00:01.500 --> 00:04.200]  hello world"
      = (⟨"[00:01.500 --> 00:04.200]  hello world\n", some 10, 3 / 2⟩,
         some (ProgressEvent.update (3 / 2) 15))
  ∧ parseTimestamp "00:04.200" = 21 / 5
  ∧ min (jsRound ((21 / 5 : ℚ) / 10 * 100)) 100 = 42 := by
  refine ⟨?_, processLine_hello, ?_, ?_⟩
  · intro st line total c p htd htot hev
    obtain ⟨hp, hc0⟩ := processLine_update_percent st line total c p htd hev
    refine ⟨by rw [hp, min_jsRound_eq (c / total)], ?_, ?_⟩
    · rw [hp]
      refine le_min ?_ (by norm_num)
      unfold jsRound
      apply Int.floor_nonneg.mpr
      have hx : (0 : ℚ) ≤ c / total * 100 := by positivity
      linarith
    · rw [hp]
      exact min_le_right _ _
  · have haux : parseTimestampAux "00:04.200" = some (0, 0, 4, 200) := by decide
    unfold parseTimestamp
    rw [haux]
    norm_num
  · unfold jsRound
    have h1 : (21 : ℚ) / 5 / 10 * 100 + 1 / 2 = 85 / 2 := by norm_num
    rw [h1]
    have h2 : ⌊(85 : ℚ) / 2⌋ = 42 := by norm_num
    rw [h2]
    decide

/-- C6 witness: the percent law applied at the scenario update the code
actually emits. -/
theorem percent_formula_and_start_timestamp_slip_witness :
    (15 : ℤ) = jsRound (min ((3 / 2 : ℚ) / 10) 1 * 100) ∧ (0 : ℤ) ≤ 15 ∧ (15 : ℤ) ≤ 100 := by
  have h := percent_formula_and_start_timestamp_slip
  have hev : (processLine ⟨"", some 10, 0⟩ "[00:01.500 --> 00:04.200]  hello world").2
      = some (ProgressEvent.update (3 / 2) 15) := by rw [h.2.1]
  exact h.1 ⟨"", some 10, 0⟩ "[00:01.500 --> 00:04.200]  hello world" 10 (3 / 2) 15 rfl
    (by norm_num) hev

/-- C10: `parseTimestamp` is total — any string the timestamp regex rejects
yields 0 rather than an exception — and since an update is applied only when
the parsed value strictly exceeds the nonnegative `lastProgressUpdate`, a line
whose end timestamp parses to 0 never produces a percent progress update. -/
theorem unparseable_timestamp_no_percent_update :
    (∀ s, parseTimestampAux s = none → parseTimestamp s = 0)
  ∧ ∀ st line, 0 ≤ st.lastProgressUpdate →
      (∀ m, bracketMatch line = some m → parseTimestamp (endTimeStr m) = 0) →
      isPercentUpdate (processLine st line).2 = false := by
  constructor
  · intro s hs
    unfold parseTimestamp
    rw [hs]
  · intro st line h0 hun
    rcases processLine_shape st line with heq | heq | ⟨m, total, hbm, htd, hne, hgt, heq⟩
    · rw [heq]
      rfl
    · rw [heq]
      rfl
    · have hz := hun m hbm
      rw [hz] at hgt
      exact absurd hgt (not_lt.mpr h0)

/-- C10 witness: totality at a rejected string and silence of the handler on a
line with no timestamp range. -/
theorem unparseable_timestamp_no_percent_update_witness :
    parseTimestamp "not a timestamp" = 0
  ∧ isPercentUpdate (processLine ⟨"", some 10, 0⟩ "no timestamps here").2 = false := by
  have h := unparseable_timestamp_no_percent_update
  refine ⟨h.1 "not a timestamp" (by decide), ?_⟩
  refine h.2 ⟨"", some 10, 0⟩ "no timestamps here" (le_refl 0) ?_
  intro m hm
  have hb : bracketMatch "no timestamps here" = none := by decide
  rw [hb] at hm
  cases hm


/-- Association-list lookup at the matching head key. -/
theorem lookup_cons_self (a b : String) (l : FsImage) :
    List.lookup a ((a, b) :: l) = some b := by
  simp [List.lookup]

/-- Association-list lookup skips a non-matching head key. -/
theorem lookup_cons_ne (a k b : String) (l : FsImage) (h : a ≠ k) :
    List.lookup a ((k, b) :: l) = List.lookup a l := by
  simp [List.lookup, beq_eq_false_iff_ne.mpr h]

/-- After filtering out path `p`, looking up `p` fails. -/
theorem lookup_filter_self (fs : FsImage) (p : String) :
    (fs.filter (fun e => e.1 != p)).lookup p = none := by
  induction fs with
  | nil => rfl
  | cons x rest ih =>
    rcases x with ⟨a, b⟩
    by_cases hx : a = p
    · subst hx
      simpa [List.filter_cons] using ih
    · rw [List.filter_cons]
      simp only []
      rw [if_pos (bne_iff_ne.mpr hx), lookup_cons_ne p a b _ (Ne.symm hx)]
      exact ih

/-- Filtering out path `p` does not affect lookups of other paths. -/
theorem lookup_filter_ne (fs : FsImage) (p q : String) (h : q ≠ p) :
    (fs.filter (fun e => e.1 != p)).lookup q = fs.lookup q := by
  induction fs with
  | nil => rfl
  | cons x rest ih =>
    rcases x with ⟨a, b⟩
    by_cases hx : a = p
    · subst hx
      rw [List.filter_cons]
      simp only []
      rw [if_neg (by simp), lookup_cons_ne q a b rest h]
      exact ih
    · rw [List.filter_cons]
      simp only []
      rw [if_pos (bne_iff_ne.mpr hx)]
      by_cases hq : q = a
      · subst hq
        rw [lookup_cons_self, lookup_cons_self]
      · rw [lookup_cons_ne q a b _ hq, lookup_cons_ne q a b rest hq]
        exact ih

/-- C7: on recognizer exit code 0 the runner resolves with the trimmed
contents of the output artifact (the text file named after the input's base
name in the scratch directory), regardless of what accumulated on stdout; and
when that artifact is absent it rejects with the artifact-missing error rather
than resolving with an empty transcript. -/
theorem exit_zero_reads_artifact_or_fails (tempDir audioPath : String) (fs : FsImage)
    (t1 t2 : String) :
    (∀ content, fs.lookup (outputPath tempDir audioPath) = some content →
        runCloseHandler tempDir audioPath fs t1 0 = .ok (jsTrim content))
  ∧ (fs.lookup (outputPath tempDir audioPath) = none →
        runCloseHandler tempDir audioPath fs t1 0 = .error RunError.resultArtifactMissing)
  ∧ runCloseHandler tempDir audioPath fs t1 0 = runCloseHandler tempDir audioPath fs t2 0 := by
  unfold runCloseHandler
  rw [if_pos rfl]
  exact ⟨fun content hc => by rw [hc], fun hn => by rw [hn], rfl⟩

/-- C7 witness: the close handler at a concrete scratch directory, with the
artifact present and then absent. -/
theorem exit_zero_reads_artifact_or_fails_witness :
    runCloseHandler "/tmp" "/tmp/a_converted.wav" [("/tmp/a_converted.txt", " hi ")] "acc" 0
      = .ok (jsTrim " hi ")
  ∧ runCloseHandler "/tmp" "/tmp/a_converted.wav" [] "acc" 0
      = .error RunError.resultArtifactMissing := by
  constructor
  · exact (exit_zero_reads_artifact_or_fails "/tmp" "/tmp/a_converted.wav"
      [("/tmp/a_converted.txt", " hi ")] "acc" "acc").1 " hi " (by decide)
  · exact (exit_zero_reads_artifact_or_fails "/tmp" "/tmp/a_converted.wav" [] "acc" "acc").2.1 rfl

/-- C8 counterexample: when reading the temporary mp3 back fails after the
recognizer produced a result, the operation errors out and no scratch artifact
is deleted — the raw input and the wav file both survive, contradicting the
claim that the same three deletions happen on this I/O-failure path. -/
theorem readback_failure_skips_cleanup :
    processTail [("in.webm", "r"), ("in_converted.wav", "w")] "in.webm" "in_converted.wav"
        "in.mp3" "txt"
      = (.error (RunError.readBackFailed "in.mp3"),
         [("in.webm", "r"), ("in_converted.wav", "w")])
  ∧ ([("in.webm", "r"), ("in_converted.wav", "w")] : FsImage).lookup "in.webm" = some "r"
  ∧ ([("in.webm", "r"), ("in_converted.wav", "w")] : FsImage).lookup "in_converted.wav"
      = some "w" := by
  refine ⟨?_, rfl, rfl⟩
  rfl

/-- C8 (amended): on a successful run where the mp3 read-back and every
deletion succeed, all three scratch artifacts are deleted after the recognizer
produces a result; and a failure of a deletion (here: the raw input already
gone, which also abandons the remaining deletions) is swallowed by the
surrounding catch and never changes the operation's result. -/
theorem cleanup_on_success_and_best_effort :
    (∀ (fs : FsImage) (tfp wav mp3 t a b c : String),
        fs.lookup tfp = some a → fs.lookup wav = some b → fs.lookup mp3 = some c →
        tfp ≠ wav → tfp ≠ mp3 → wav ≠ mp3 →
        (processTail fs tfp wav mp3 t).1 = .ok (t, c)
          ∧ (processTail fs tfp wav mp3 t).2.lookup tfp = none
          ∧ (processTail fs tfp wav mp3 t).2.lookup wav = none
          ∧ (processTail fs tfp wav mp3 t).2.lookup mp3 = none)
  ∧ ∀ (fs : FsImage) (tfp wav mp3 t c : String),
      fs.lookup mp3 = some c → fs.lookup tfp = none →
      (processTail fs tfp wav mp3 t).1 = .ok (t, c) := by
  constructor
  · intro fs tfp wav mp3 t a b c h1 h2 h3 d12 d13 d23
    have hpt : processTail fs tfp wav mp3 t
        = (.ok (t, c), cleanupChain fs [tfp, wav, mp3]) := by
      unfold processTail
      rw [h3]
    have hu1 : fsUnlink fs tfp = some (fs.filter (fun e => e.1 != tfp)) := by
      unfold fsUnlink
      rw [h1]
      rfl
    set fs1 : FsImage := fs.filter (fun e => e.1 != tfp) with hfs1
    have h2' : fs1.lookup wav = some b := by
      rw [hfs1, lookup_filter_ne fs tfp wav (Ne.symm d12)]
      exact h2
    have hu2 : fsUnlink fs1 wav = some (fs1.filter (fun e => e.1 != wav)) := by
      unfold fsUnlink
      rw [h2']
      rfl
    set fs2 : FsImage := fs1.filter (fun e => e.1 != wav) with hfs2
    have h3' : fs2.lookup mp3 = some c := by
      rw [hfs2, lookup_filter_ne fs1 wav mp3 (Ne.symm d23), hfs1,
        lookup_filter_ne fs tfp mp3 (Ne.symm d13)]
      exact h3
    have hu3 : fsUnlink fs2 mp3 = some (fs2.filter (fun e => e.1 != mp3)) := by
      unfold fsUnlink
      rw [h3']
      rfl
    have hchain : cleanupChain fs [tfp, wav, mp3] = fs2.filter (fun e => e.1 != mp3) := by
      simp only [cleanupChain, hu1, ← hfs1, hu2, ← hfs2, hu3]
    have hpt1 : (processTail fs tfp wav mp3 t).1 = .ok (t, c) := by rw [hpt]
    have hpt2 : (processTail fs tfp wav mp3 t).2 = fs2.filter (fun e => e.1 != mp3) := by
      rw [hpt]
      exact hchain
    refine ⟨hpt1, ?_, ?_, ?_⟩
    · rw [hpt2, lookup_filter_ne fs2 mp3 tfp d13, hfs2, lookup_filter_ne fs1 wav tfp d12,
        hfs1, lookup_filter_self]
    · rw [hpt2, lookup_filter_ne fs2 mp3 wav d23, hfs2, lookup_filter_self]
    · rw [hpt2, lookup_filter_self]
  · intro fs tfp wav mp3 t c h3 hmiss
    unfold processTail
    rw [h3]

/-- C8 witness: the amended statement at a concrete three-artifact scratch
image, and the unchanged result when the raw input is already gone. -/
theorem cleanup_on_success_and_best_effort_witness :
    ((processTail [("a.webm", "r"), ("a_converted.wav", "w"), ("a.mp3", "m")] "a.webm"
        "a_converted.wav" "a.mp3" "txt").1 = .ok ("txt", "m")
      ∧ (processTail [("a.webm", "r"), ("a_converted.wav", "w"), ("a.mp3", "m")] "a.webm"
          "a_converted.wav" "a.mp3" "txt").2.lookup "a.webm" = none
      ∧ (processTail [("a.webm", "r"), ("a_converted.wav", "w"), ("a.mp3", "m")] "a.webm"
          "a_converted.wav" "a.mp3" "txt").2.lookup "a_converted.wav" = none
      ∧ (processTail [("a.webm", "r"), ("a_converted.wav", "w"), ("a.mp3", "m")] "a.webm"
          "a_converted.wav" "a.mp3" "txt").2.lookup "a.mp3" = none)
  ∧ (processTail [("a.mp3", "m")] "a.webm" "a_converted.wav" "a.mp3" "txt").1
      = .ok ("txt", "m") := by
  constructor
  · exact cleanup_on_success_and_best_effort.1
      [("a.webm", "r"), ("a_converted.wav", "w"), ("a.mp3", "m")] "a.webm" "a_converted.wav"
      "a.mp3" "txt" "r" "w" "m" (by decide) (by decide) (by decide) (by decide) (by decide)
      (by decide)
  · exact cleanup_on_success_and_best_effort.2 [("a.mp3", "m")] "a.webm" "a_converted.wav"
      "a.mp3" "txt" "m" (by decide) (by decide)
